import Mathlib

/-!
Verification of the read-through caching subsystem: a shallow embedding of
the cache middleware (src/middleware/cacheMiddleware.ts), the cache service
(src/services/cacheService.ts) and the Redis connection pool
(src/config/redisPool.ts), together with proofs of the specification's
claims about them.

JavaScript/JSON values are modelled by an inductive `JsonVal`; the Redis
backend is modelled as an explicit store of (key, wire value, expiry)
entries plus a published-message log; backend command failures and
connection failures are modelled by explicit fault flags, since every
service operation wraps its backend calls in try/catch.
-/

/-- Model of a JSON value (the payloads stored in the cache and the bodies
passed to res.json). -/
inductive JsonVal where
  | jnull
  | jbool (b : Bool)
  | jnum (n : Int)
  | jstr (s : String)
  | jarr (elems : List JsonVal)
  | jobj (fields : List (String × JsonVal))
deriving Repr

/-- JavaScript truthiness of a JSON value: null, false, 0 and the empty
string are falsy; arrays and objects are always truthy. -/
def jsTruthy : JsonVal → Bool
  | JsonVal.jnull => false
  | JsonVal.jbool b => b
  | JsonVal.jnum n => n != 0
  | JsonVal.jstr s => s != ""
  | JsonVal.jarr _ => true
  | JsonVal.jobj _ => true

/-- Field lookup in a JSON object (the model treats field lists as maps,
first binding wins). -/
def lookupField (fields : List (String × JsonVal)) (name : String) : Option JsonVal :=
  match fields with
  | [] => none
  | (k, v) :: rest => if k = name then some v else lookupField rest name

/-- The member access data.success as the middleware evaluates it in its
caching/invalidation guard: the success field's truthiness for an object;
for a primitive the access yields undefined, which is falsy. -/
def successFlag : JsonVal → Bool
  | JsonVal.jobj fields =>
    match lookupField fields "success" with
    | some v => jsTruthy v
    | none => false
  | _ => false

/-- Model of new URLSearchParams(query).toString(): serializes the record's
entries in their insertion order, joined by ampersands. Percent-encoding is
elided (it is the identity on the plain ASCII parameter names and values
this system's routes use) and does not affect entry order. -/
def urlSearchParamsToString (query : List (String × String)) : String :=
  String.intercalate "&" (query.map (fun p => p.1 ++ "=" ++ p.2))

/-- An incoming HTTP request as the middleware sees it: method, path and
the parsed query record (in the insertion order express produced it). -/
structure Req where
  method : String
  path : String
  query : List (String × String)
deriving DecidableEq, Repr

/-- generateCacheKey from src/middleware/cacheMiddleware.ts: for GET
requests, path plus the query string in its original parameter order (the
query string is appended only when nonempty); for other methods, the bare
path. -/
def generateCacheKey (req : Req) : String :=
  if req.method = "GET" then
    let queryString := urlSearchParamsToString req.query
    if queryString ≠ "" then req.path ++ "?" ++ queryString else req.path
  else req.path

/-- Left cancellation for string append. -/
theorem string_append_left_cancel {a b c : String} (h : a ++ b = a ++ c) : b = c := by
  have h2 : (a ++ b).data = (a ++ c).data := by rw [h]
  simp [String.data_append] at h2
  exact String.ext h2

/-- A nonempty string has positive length. -/
theorem string_ne_empty_length_pos {s : String} (h : s ≠ "") : 0 < s.length := by
  rw [← String.length_data]
  cases hd : s.data with
  | nil => exact absurd (String.ext (hd.trans rfl)) h
  | cons c cs => simp [hd]

/-- C2 (amended): for GET requests with the same path, the default key
generator produces identical keys exactly when the serialized query strings
coincide — the query parameters' presentation order is part of the key. -/
theorem c2_key_determined_by_query_string (path : String) (q1 q2 : List (String × String)) :
    (generateCacheKey ⟨"GET", path, q1⟩ = generateCacheKey ⟨"GET", path, q2⟩) ↔
      urlSearchParamsToString q1 = urlSearchParamsToString q2 := by
  unfold generateCacheKey
  simp only [if_pos rfl]
  have hq : ("?" : String).length = 1 := rfl
  by_cases h1 : urlSearchParamsToString q1 = "" <;>
    by_cases h2 : urlSearchParamsToString q2 = ""
  · simp [h1, h2]
  · rw [if_neg (not_not_intro h1), if_pos h2]
    constructor
    · intro h
      exfalso
      have hlen := congrArg String.length h
      simp [String.length_append, hq] at hlen
      have := string_ne_empty_length_pos h2
      omega
    · intro h
      exact absurd (h.symm.trans h1) h2
  · rw [if_pos h1, if_neg (not_not_intro h2)]
    constructor
    · intro h
      exfalso
      have hlen := congrArg String.length h
      simp [String.length_append, hq] at hlen
      have := string_ne_empty_length_pos h1
      omega
    · intro h
      exact absurd (h.trans h2) h1
  · rw [if_pos h1, if_pos h2]
    constructor
    · intro h
      exact string_append_left_cancel (a := path ++ "?") h
    · intro h
      rw [h]

/-- C2 counterexample: two GET requests for the same path whose query
records hold the same set of parameters in different orders (an explicit
permutation) receive different cache keys from the default generator — the
generator serializes the query in presentation order and does not sort. -/
theorem c2_counterexample :
    List.Perm [("doctorName", "smith"), ("page", "1")]
      [("page", "1"), ("doctorName", "smith")] ∧
    generateCacheKey ⟨"GET", "/api/appointments", [("doctorName", "smith"), ("page", "1")]⟩ ≠
      generateCacheKey ⟨"GET", "/api/appointments", [("page", "1"), ("doctorName", "smith")]⟩ := by
  constructor
  · decide
  · decide

/-- Wire form of a cache entry as stored in the backend. JSON.stringify of
a JSON tree is modelled as the tree itself (stringify and parse are mutually
inverse on JSON trees, and stringify never yields the empty string); the
corrupt constructor models a stored string written by some other client
that JSON.parse rejects. -/
inductive Wire where
  | json (v : JsonVal)
  | corrupt (s : String)

/-- JavaScript truthiness of the raw cached string (the middleware's cache
service tests the string before parsing): stringified JSON is never empty,
hence always truthy; a corrupt string is truthy when nonempty. -/
def wireTruthy : Wire → Bool
  | Wire.json _ => true
  | Wire.corrupt s => s != ""

/-- JSON.parse of the stored string: succeeds on stringified JSON, throws
on a corrupt string. -/
def parseWire : Wire → Except String JsonVal
  | Wire.json v => Except.ok v
  | Wire.corrupt _ => Except.error "Unexpected token in JSON"

/-- One backend entry: full key, stored wire value, and the remaining
expiry in seconds (none models a key with no expiration). -/
structure RedisEntry where
  key : String
  value : Wire
  expiry : Option Nat

/-- A pub/sub envelope as CacheService.publish serializes it:
timestamp, originating service name and the inner payload. -/
structure PubMessage where
  timestamp : String
  service : String
  data : JsonVal

/-- The Redis backend state visible to this subsystem: the keyspace plus
the log of published (channel, envelope) messages. -/
structure RedisStore where
  entries : List RedisEntry
  published : List (String × PubMessage)

/-- Redis GET: the wire value at a key, if present. -/
def storeGet (st : RedisStore) (k : String) : Option Wire :=
  match st.entries.find? (fun e => e.key == k) with
  | some e => some e.value
  | none => none

/-- Redis TTL: remaining seconds for a key with an expiry, -1 for a key
without one, -2 when the key does not exist. -/
def storeTTL (st : RedisStore) (k : String) : Int :=
  match st.entries.find? (fun e => e.key == k) with
  | some e =>
    match e.expiry with
    | some n => (n : Int)
    | none => -1
  | none => -2

/-- Redis SETEX: store a value under a key with an expiry, replacing any
previous entry for that key. -/
def storeSetex (st : RedisStore) (k : String) (ttl : Nat) (v : Wire) : RedisStore :=
  { st with entries := ⟨k, v, some ttl⟩ :: st.entries.filter (fun e => e.key != k) }

/-- Redis DEL of a batch of keys. -/
def storeDel (st : RedisStore) (ks : List String) : RedisStore :=
  { st with entries := st.entries.filter (fun e => !(ks.contains e.key)) }

/-- Redis glob-style pattern matching over key characters, as the KEYS
command applies it: * matches any (possibly empty) substring, ? matches a
single character, every other character matches itself. (The
character-class and escape syntax of the KEYS matcher is unused by this
system's patterns and is not modelled.) -/
def globMatchL : List Char → List Char → Bool
  | [], [] => true
  | [], _ :: _ => false
  | '*' :: ps, [] => globMatchL ps []
  | '*' :: ps, c :: s2 => globMatchL ps (c :: s2) || globMatchL ('*' :: ps) s2
  | '?' :: ps, _ :: s2 => globMatchL ps s2
  | '?' :: _, [] => false
  | p :: ps, c :: s2 => (p == c) && globMatchL ps s2
  | _ :: _, [] => false
termination_by ps s => (ps.length, s.length)

/-- Redis KEYS pattern matching over strings. -/
def globMatch (pat s : String) : Bool :=
  globMatchL pat.data s.data

/-- Redis KEYS: all keys of the store matching a glob pattern. -/
def storeKeys (st : RedisStore) (pat : String) : List String :=
  (st.entries.filter (fun e => globMatch pat e.key)).map RedisEntry.key

/-- Redis PUBLISH: append a message envelope to the channel log. -/
def storePublish (st : RedisStore) (channel : String) (msg : PubMessage) : RedisStore :=
  { st with published := st.published ++ [(channel, msg)] }

/-- The context of one CacheService instance: its logical service name and
the environment tag used as the key prefix (process.env.NODE_ENV, with
"dev" as the fallback). -/
structure SvcCtx where
  serviceName : String
  envTag : String

/-- Fault flags for one service operation: whether ensureConnection fails
and whether each kind of backend command fails. Every CacheService method
wraps these calls in try/catch, so faults surface only through the safe
defaults proved below. -/
structure Faults where
  conn : Bool
  getCmd : Bool
  setCmd : Bool
  delCmd : Bool
  keysCmd : Bool
  ttlCmd : Bool
  mgetCmd : Bool
  pubCmd : Bool
deriving DecidableEq, Repr

/-- The fully healthy backend: no fault on any call. -/
def Faults.healthy : Faults :=
  ⟨false, false, false, false, false, false, false, false⟩

/-- Throw when the given backend call is marked as failing. -/
def guardCmd (fail : Bool) (msg : String) : Except String Unit :=
  if fail then Except.error msg else Except.ok ()

/-- CacheService.generateKey: prefix the raw key with the environment tag
and, when given, the namespace. -/
def generateKey (ctx : SvcCtx) (key : String) (ns : Option String) : String :=
  match ns with
  | some n => ctx.envTag ++ ":" ++ n ++ ":" ++ key
  | none => ctx.envTag ++ ":" ++ key

/-- The service's default TTL of one hour. -/
def defaultTTL : Nat := 3600

/-- TTL resolution in CacheService.set: options.ttl when truthy (a ttl of
0 is falsy in JavaScript and falls back), otherwise the default TTL. -/
def resolveTTL (ttlOpt : Option Nat) : Nat :=
  match ttlOpt with
  | some t => if t = 0 then defaultTTL else t
  | none => defaultTTL

/-- The try block of CacheService.get: acquire the connection, issue the
backend GET for the namespaced key, and when the cached string is truthy
return its JSON.parse; a falsy cached string and an absent key both return
null. Any failure raises into the surrounding catch. -/
def svcGetBody (ctx : SvcCtx) (f : Faults) (st : RedisStore) (key : String)
    (ns : Option String) : Except String JsonVal := do
  guardCmd f.conn "ensureConnection failed"
  let cacheKey := generateKey ctx key ns
  guardCmd f.getCmd "redis get failed"
  match storeGet st cacheKey with
  | some w =>
    if wireTruthy w then parseWire w
    else pure JsonVal.jnull
  | none => pure JsonVal.jnull

/-- CacheService.get: the try block with its catch, which converts every
error into a null result (a JavaScript caller cannot distinguish this
null from a miss). -/
def svcGet (ctx : SvcCtx) (f : Faults) (st : RedisStore) (key : String)
    (ns : Option String) : Except String JsonVal :=
  match svcGetBody ctx f st key ns with
  | Except.ok v => Except.ok v
  | Except.error _ => Except.ok JsonVal.jnull

/-- The value CacheService.get resolves with, for callers that await it
(the operation is exception-free, proved below, so the error arm is
unreachable). -/
def svcGetValue (ctx : SvcCtx) (f : Faults) (st : RedisStore) (key : String)
    (ns : Option String) : JsonVal :=
  match svcGet ctx f st key ns with
  | Except.ok v => v
  | Except.error _ => JsonVal.jnull

/-- The try block of CacheService.set: SETEX of the stringified value
under the namespaced key with the resolved TTL. -/
def svcSetBody (ctx : SvcCtx) (f : Faults) (st : RedisStore) (key : String)
    (value : JsonVal) (ttlOpt : Option Nat) (ns : Option String) :
    Except String RedisStore := do
  guardCmd f.conn "ensureConnection failed"
  guardCmd f.setCmd "redis setex failed"
  pure (storeSetex st (generateKey ctx key ns) (resolveTTL ttlOpt) (Wire.json value))

/-- CacheService.set with its catch: on any failure the store is left as
it was and no error propagates. -/
def svcSet (ctx : SvcCtx) (f : Faults) (st : RedisStore) (key : String)
    (value : JsonVal) (ttlOpt : Option Nat) (ns : Option String) : RedisStore :=
  match svcSetBody ctx f st key value ttlOpt ns with
  | Except.ok st2 => st2
  | Except.error _ => st

/-- The try block of CacheService.deleteByPattern: KEYS on the namespaced
pattern followed by one DEL of the matches, skipped when nothing
matched. -/
def svcDeleteByPatternBody (ctx : SvcCtx) (f : Faults) (st : RedisStore)
    (pat : String) (ns : Option String) : Except String RedisStore := do
  guardCmd f.conn "ensureConnection failed"
  let searchPat := generateKey ctx pat ns
  guardCmd f.keysCmd "redis keys failed"
  let ks := storeKeys st searchPat
  if ks.length > 0 then do
    guardCmd f.delCmd "redis del failed"
    pure (storeDel st ks)
  else
    pure st

/-- CacheService.deleteByPattern with its catch: failures leave the store
unchanged and do not propagate. -/
def svcDeleteByPattern (ctx : SvcCtx) (f : Faults) (st : RedisStore)
    (pat : String) (ns : Option String) : RedisStore :=
  match svcDeleteByPatternBody ctx f st pat ns with
  | Except.ok st2 => st2
  | Except.error _ => st

/-- CacheService.publish with its catch: wrap the payload in an envelope
carrying the timestamp and the originating service name and PUBLISH it;
failures leave the log unchanged and do not propagate. -/
def svcPublish (ctx : SvcCtx) (f : Faults) (st : RedisStore) (channel : String)
    (timestamp : String) (data : JsonVal) : RedisStore :=
  match (do
      guardCmd f.conn "ensureConnection failed"
      guardCmd f.pubCmd "redis publish failed"
      pure (storePublish st channel ⟨timestamp, ctx.serviceName, data⟩) :
    Except String RedisStore) with
  | Except.ok st2 => st2
  | Except.error _ => st

/-- The CacheInvalidationMessage object that invalidateCache publishes:
namespace, key pattern and originating service. -/
def invalidationMessage (ns pat svc : String) : JsonVal :=
  JsonVal.jobj
    [("namespace", JsonVal.jstr ns), ("pattern", JsonVal.jstr pat),
      ("service", JsonVal.jstr svc)]

/-- JavaScript default via the or-operator: pattern or a fallback, where
the empty string counts as falsy. -/
def orDefaultStr (s : Option String) (dflt : String) : String :=
  match s with
  | some v => if v = "" then dflt else v
  | none => dflt

/-- CacheService.invalidateCache: deleteByPattern of the given pattern
(defaulting to the whole namespace) followed by publishInvalidation of the
invalidation message on the cache:invalidate channel. -/
def svcInvalidateCache (ctx : SvcCtx) (f : Faults) (st : RedisStore)
    (ns : String) (patOpt : Option String) (timestamp : String) : RedisStore :=
  let deletePat := orDefaultStr patOpt "*"
  let st1 := svcDeleteByPattern ctx f st deletePat (some ns)
  svcPublish ctx f st1 "cache:invalidate" timestamp
    (invalidationMessage ns deletePat ctx.serviceName)

/-- CacheService.getTTL with its catch: the backend TTL of the namespaced
key, or -1 when the connection or the command fails. -/
def svcGetTTL (ctx : SvcCtx) (f : Faults) (st : RedisStore) (key : String)
    (ns : Option String) : Except String Int :=
  match (do
      guardCmd f.conn "ensureConnection failed"
      guardCmd f.ttlCmd "redis ttl failed"
      pure (storeTTL st (generateKey ctx key ns)) : Except String Int) with
  | Except.ok n => Except.ok n
  | Except.error _ => Except.ok (-1)

/-- The per-entry step of getBatch's result assembly (the loop body over
the original key paired with its MGET value): parse a truthy cached
string, map a falsy or absent one to null. -/
def batchEntry (kv : String × Option Wire) : Except String (String × JsonVal) :=
  match kv.2 with
  | some w =>
    if wireTruthy w then (parseWire w).map (fun v => (kv.1, v))
    else pure (kv.1, JsonVal.jnull)
  | none => pure (kv.1, JsonVal.jnull)

/-- The result-building loop of getBatch: apply batchEntry to each
key/value pair in order, collecting the record entries; the first parse
failure aborts the loop (raising into getBatch's catch). -/
def batchCollect : List (String × Option Wire) → Except String (List (String × JsonVal))
  | [] => Except.ok []
  | kv :: rest => do
    let r ← batchEntry kv
    let rs ← batchCollect rest
    pure (r :: rs)

/-- The try block of CacheService.getBatch: MGET of the namespaced keys,
then rebuild the result record entry by entry, parsing each truthy cached
string and mapping falsy or absent ones to null. A parse failure raises
into the surrounding catch. -/
def svcGetBatchBody (ctx : SvcCtx) (f : Faults) (st : RedisStore)
    (keys : List String) (ns : Option String) :
    Except String (List (String × JsonVal)) := do
  guardCmd f.conn "ensureConnection failed"
  let cacheKeys := keys.map (fun k => generateKey ctx k ns)
  guardCmd f.mgetCmd "redis mget failed"
  let values := cacheKeys.map (fun ck => storeGet st ck)
  batchCollect (keys.zip values)

/-- CacheService.getBatch with its catch: on any failure the result is the
record mapping every requested key to null. -/
def svcGetBatch (ctx : SvcCtx) (f : Faults) (st : RedisStore)
    (keys : List String) (ns : Option String) :
    Except String (List (String × JsonVal)) :=
  match svcGetBatchBody ctx f st keys ns with
  | Except.ok m => Except.ok m
  | Except.error _ => Except.ok (keys.map (fun k => (k, JsonVal.jnull)))

/-- The response a route handler produces through res.json: the HTTP
status code in force and the JSON body. -/
structure HandlerResult where
  status : Nat
  body : JsonVal

/-- Options of the cacheMiddleware factory: resource namespace, optional
TTL, optional custom key generator and optional skip predicate. -/
structure MwOptions where
  ns : String
  ttl : Option Nat
  keyGenerator : Option (Req → String)
  skipCache : Option (Req → Bool)

/-- The cache key the middleware computes: the custom generator when
configured, the default generator otherwise. -/
def mwKey (opts : MwOptions) (req : Req) : String :=
  match opts.keyGenerator with
  | some g => g req
  | none => generateCacheKey req

/-- Whether the skip predicate bypasses caching for this request. -/
def mwSkips (opts : MwOptions) (req : Req) : Bool :=
  match opts.skipCache with
  | some p => p req
  | none => false

/-- One request through the read-through wrapper produced by
cacheMiddleware, given the real route handler as a function from the
request to its response. Non-GET requests and skipped requests pass
through untouched; otherwise the wrapper initializes the service, looks
the computed key up via getCachedData, short-circuits with the cached
payload when it is truthy (an express response defaults to status 200),
and on a miss runs the handler, intercepting res.json to store the body
via cacheData exactly when the status is 2xx and the body's success flag
is truthy (cacheData defaults an absent middleware TTL to 300 before
CacheService.set resolves it). The wrapper's catch falls back to the bare
handler. -/
def runCacheMiddleware (ctx : SvcCtx) (opts : MwOptions) (f : Faults)
    (handler : Req → HandlerResult) (req : Req) (st : RedisStore) :
    HandlerResult × RedisStore :=
  if req.method ≠ "GET" then (handler req, st)
  else if mwSkips opts req then (handler req, st)
  else
    match (do
        guardCmd f.conn "initialize failed"
        let cacheKey := mwKey opts req
        let cachedData ← svcGet ctx f st cacheKey (some opts.ns)
        if jsTruthy cachedData then
          pure (HandlerResult.mk 200 cachedData, st)
        else
          let hres := handler req
          if 200 ≤ hres.status ∧ hres.status < 300 ∧ successFlag hres.body then
            pure (hres,
              svcSet ctx f st cacheKey hres.body (some (opts.ttl.getD 300)) (some opts.ns))
          else pure (hres, st) :
      Except String (HandlerResult × RedisStore)) with
    | Except.ok r => r
    | Except.error _ => (handler req, st)

/-- A sequence of requests processed through the read-through wrapper,
threading the backend store and recording each response; each request
carries its own fault pattern. -/
def mwTrace (ctx : SvcCtx) (opts : MwOptions) (handler : Req → HandlerResult) :
    List (Req × Faults) → RedisStore → List HandlerResult × RedisStore
  | [], st => ([], st)
  | (req, f) :: rest, st =>
    let step := runCacheMiddleware ctx opts f handler req st
    let next := mwTrace ctx opts handler rest step.2
    (step.1 :: next.1, next.2)

/-- Cache consistency of a backend state with respect to the responses a
deterministic handler gives per middleware cache key: every truthy JSON
payload stored under a namespaced key is the body the handler produces for
that key. Entries written by the wrapper itself maintain this, which is
proved below as part of the transparency claim. -/
def MwConsistent (ctx : SvcCtx) (opts : MwOptions)
    (hkey : String → HandlerResult) (st : RedisStore) : Prop :=
  ∀ (k : String) (v : JsonVal),
    storeGet st (generateKey ctx k (some opts.ns)) = some (Wire.json v) →
    jsTruthy v = true → v = (hkey k).body

/-- ioredis connection status values. -/
inductive ConnStatus where
  | wait
  | connecting
  | connect
  | ready
  | reconnecting
  | close
  | ended
deriving DecidableEq, Repr

/-- One pooled ioredis client: an identity (distinguishing the physical
connection object) and its current status. -/
structure Conn where
  id : Nat
  status : ConnStatus
deriving DecidableEq, Repr

/-- The pool's connection map, service name to client. -/
abbrev PoolState := List (String × Conn)

/-- Map lookup on the pool's connection map. -/
def lookupConn (st : PoolState) (name : String) : Option Conn :=
  match st.find? (fun e => e.1 == name) with
  | some e => some e.2
  | none => none

/-- Removal of one service name from the connection map. -/
def poolErase (st : PoolState) (name : String) : PoolState :=
  st.filter (fun e => e.1 != name)

/-- Map.set on the connection map: bind a service name to a client,
replacing any previous binding. -/
def poolSet (st : PoolState) (name : String) (c : Conn) : PoolState :=
  (name, c) :: poolErase st name

/-- RedisConnectionPool.closeConnection: quit and remove the named
connection when present, a silent no-op otherwise (the model takes quit
itself to succeed; a quit failure would only leave a stale entry that the
subsequent Map.set in createConnection replaces). -/
def closeConnection (st : PoolState) (name : String) : PoolState :=
  match lookupConn st name with
  | some _ => poolErase st name
  | none => st

/-- The usability test createConnection and getConnection apply to an
existing connection: only the ready and connecting statuses count. -/
def usable (c : Conn) : Bool :=
  c.status == ConnStatus.ready || c.status == ConnStatus.connecting

/-- RedisConnectionPool.createConnection: reuse an existing usable
connection; otherwise close the old one (when present), construct a fresh
client and await its connect, storing it in the map on success. The fresh
client and whether its connect succeeds are parameters of the model; a
connect failure is rethrown with the map already purged of the old
entry. -/
def createConnection (st : PoolState) (name : String) (fresh : Conn)
    (connectOk : Bool) : Except String Conn × PoolState :=
  match lookupConn st name with
  | some existing =>
    if usable existing then (Except.ok existing, st)
    else
      let st1 := closeConnection st name
      if connectOk then (Except.ok fresh, poolSet st1 name fresh)
      else (Except.error "connect failed", st1)
  | none =>
    if connectOk then (Except.ok fresh, poolSet st name fresh)
    else (Except.error "connect failed", st)

/-- RedisConnectionPool.getConnection: return the mapped connection when
its status is ready or connecting, delegate to createConnection
otherwise. -/
def getConnection (st : PoolState) (name : String) (fresh : Conn)
    (connectOk : Bool) : Except String Conn × PoolState :=
  match lookupConn st name with
  | some c =>
    if usable c then (Except.ok c, st)
    else createConnection st name fresh connectOk
  | none => createConnection st name fresh connectOk

/-- RedisConnectionPool.healthCheck: false for an absent or non-ready
connection; otherwise PING, with the result compared against PONG and the
catch converting a ping failure into false. The ping outcome is a
parameter of the model. -/
def poolHealthCheck (st : PoolState) (name : String)
    (ping : Except String String) : Bool × PoolState :=
  match lookupConn st name with
  | none => (false, st)
  | some c =>
    if c.status ≠ ConnStatus.ready then (false, st)
    else
      match ping with
      | Except.ok r => (r == "PONG", st)
      | Except.error _ => (false, st)

/-- The loop body of healthCheckAll: probe each listed service in order,
threading the pool state. -/
def healthCheckAllAux (pings : String → Except String String) :
    List String → PoolState → List (String × Bool) × PoolState
  | [], st => ([], st)
  | n :: rest, st =>
    let step := poolHealthCheck st n (pings n)
    let next := healthCheckAllAux pings rest step.2
    ((n, step.1) :: next.1, next.2)

/-- RedisConnectionPool.healthCheckAll: healthCheck over every service
name in the map. -/
def poolHealthCheckAll (st : PoolState)
    (pings : String → Except String String) : List (String × Bool) × PoolState :=
  healthCheckAllAux pings (st.map Prod.fst) st

/-- The introspection record getConnectionInfo builds per service (the
host, port and logical-db fields are configuration constants and carry no
pool state; they are elided). -/
inductive ConnInfo where
  | found (service : String) (status : ConnStatus)
  | notFound (service : String)
deriving DecidableEq, Repr

/-- The two shapes getConnectionInfo returns: one record for a named
service, or the records of every tracked connection. -/
inductive ConnInfoOut where
  | one (info : ConnInfo)
  | all (infos : List (String × ConnInfo))
deriving DecidableEq, Repr

/-- RedisConnectionPool.getConnectionInfo: status of one named connection
(a not-found marker when absent), or of all tracked connections. -/
def getConnectionInfo (st : PoolState) (nameOpt : Option String) :
    ConnInfoOut × PoolState :=
  match nameOpt with
  | some name =>
    match lookupConn st name with
    | some c => (ConnInfoOut.one (ConnInfo.found name c.status), st)
    | none => (ConnInfoOut.one (ConnInfo.notFound name), st)
  | none =>
    (ConnInfoOut.all (st.map (fun e => (e.1, ConnInfo.found e.1 e.2.status))), st)

/-- RedisConnectionPool.getActiveConnections: the names whose connection
is in the ready state. -/
def getActiveConnections (st : PoolState) : List String × PoolState :=
  ((st.filter (fun e => e.2.status == ConnStatus.ready)).map Prod.fst, st)

/-- Reduction of a bind on a successful Except value. -/
@[simp] theorem except_ok_bind (a : α) (f : α → Except ε β) :
    (Except.ok a >>= f) = f a := rfl

/-- Reduction of a bind on a failed Except value. -/
@[simp] theorem except_error_bind (e : ε) (f : α → Except ε β) :
    ((Except.error e : Except ε α) >>= f) = Except.error e := rfl

/-- Characterization of CacheService.get under a healthy backend: the
parsed payload for a stored JSON value, null for an absent key, and null
again for a corrupt stored string (falsy, or rejected by JSON.parse with
the error caught). -/
theorem svcGet_healthy (ctx : SvcCtx) (st : RedisStore) (key : String)
    (ns : Option String) :
    svcGet ctx Faults.healthy st key ns =
      Except.ok (match storeGet st (generateKey ctx key ns) with
        | some (Wire.json v) => v
        | some (Wire.corrupt _) => JsonVal.jnull
        | none => JsonVal.jnull) := by
  unfold svcGet svcGetBody
  cases h : storeGet st (generateKey ctx key ns) with
  | none => simp [guardCmd, Faults.healthy, h]
  | some w =>
    cases w with
    | json v => simp [guardCmd, Faults.healthy, h, wireTruthy, parseWire]
    | corrupt s =>
      by_cases hs : s = "" <;>
        simp [guardCmd, Faults.healthy, h, wireTruthy, parseWire, hs]

/-- CacheService.get degrades to null whenever the connection or the GET
command fails. -/
theorem svcGet_fault (ctx : SvcCtx) (f : Faults) (st : RedisStore)
    (key : String) (ns : Option String) (hf : f.conn = true ∨ f.getCmd = true) :
    svcGet ctx f st key ns = Except.ok JsonVal.jnull := by
  unfold svcGet svcGetBody
  rcases hf with hc | hg
  · simp [guardCmd, hc]
  · cases hc : f.conn
    · simp [guardCmd, hc, hg]
    · simp [guardCmd, hc]

/-- CacheService.get never escapes with an exception. -/
theorem svcGet_no_exception (ctx : SvcCtx) (f : Faults) (st : RedisStore)
    (key : String) (ns : Option String) :
    ∃ r, svcGet ctx f st key ns = Except.ok r := by
  unfold svcGet
  cases h : svcGetBody ctx f st key ns with
  | ok v => exact ⟨v, rfl⟩
  | error e => exact ⟨JsonVal.jnull, rfl⟩

/-- C3: for every key and namespace, get resolves rather than throwing; on
a cache hit under a healthy backend it returns the deserialized stored
value; on a genuine miss it returns null; and on a connection or command
failure it returns null as well, so a caller cannot distinguish an error
from a miss. -/
theorem c3_get_hit_miss_error (ctx : SvcCtx) (f : Faults) (st : RedisStore)
    (key : String) (ns : Option String) :
    (∃ r, svcGet ctx f st key ns = Except.ok r) ∧
    (∀ v, storeGet st (generateKey ctx key ns) = some (Wire.json v) →
      svcGet ctx Faults.healthy st key ns = Except.ok v) ∧
    (storeGet st (generateKey ctx key ns) = none →
      svcGet ctx Faults.healthy st key ns = Except.ok JsonVal.jnull) ∧
    (f.conn = true ∨ f.getCmd = true →
      svcGet ctx f st key ns = Except.ok JsonVal.jnull) := by
  refine ⟨svcGet_no_exception ctx f st key ns, ?_, ?_, svcGet_fault ctx f st key ns⟩
  · intro v hv
    rw [svcGet_healthy, hv]
  · intro hmiss
    rw [svcGet_healthy, hmiss]

/-- A one-entry backend used as the concrete instance for several
witnesses. -/
def storeEx : RedisStore :=
  ⟨[⟨"dev:patients:/api/patients", Wire.json (JsonVal.jstr "alice"), some 300⟩], []⟩

/-- A fault pattern where the connection acquisition fails. -/
def connFault : Faults := ⟨true, false, false, false, false, false, false, false⟩

/-- Witness for C3 at a concrete store: a hit returns the stored value, a
miss returns null, and a connection failure returns null. -/
theorem c3_witness :
    svcGet ⟨"http-server", "dev"⟩ Faults.healthy storeEx "/api/patients"
        (some "patients") = Except.ok (JsonVal.jstr "alice") ∧
    svcGet ⟨"http-server", "dev"⟩ Faults.healthy storeEx "/absent"
        (some "patients") = Except.ok JsonVal.jnull ∧
    svcGet ⟨"http-server", "dev"⟩ connFault storeEx "/api/patients"
        (some "patients") = Except.ok JsonVal.jnull := by
  refine ⟨?_, ?_, ?_⟩
  · exact (c3_get_hit_miss_error ⟨"http-server", "dev"⟩ Faults.healthy storeEx
      "/api/patients" (some "patients")).2.1 (JsonVal.jstr "alice") rfl
  · exact (c3_get_hit_miss_error ⟨"http-server", "dev"⟩ Faults.healthy storeEx
      "/absent" (some "patients")).2.2.1 rfl
  · exact (c3_get_hit_miss_error ⟨"http-server", "dev"⟩ connFault storeEx
      "/api/patients" (some "patients")).2.2.2 (Or.inl rfl)

/-- C8 (amended): getTTL never throws; under a healthy backend it returns
the backend TTL of the namespaced key — the seconds remaining for a key
with an expiry, -1 for a key without one, and -2 (not -1) for an absent
key; a connection or command failure yields -1. Every resolved value is
therefore -1, -2, or a nonnegative remaining time. -/
theorem c8_getTTL_values (ctx : SvcCtx) (f : Faults) (st : RedisStore)
    (key : String) (ns : Option String) :
    (∃ n, svcGetTTL ctx f st key ns = Except.ok n) ∧
    (f = Faults.healthy →
      svcGetTTL ctx f st key ns = Except.ok (storeTTL st (generateKey ctx key ns))) ∧
    (f.conn = true ∨ f.ttlCmd = true → svcGetTTL ctx f st key ns = Except.ok (-1)) ∧
    (∀ n, svcGetTTL ctx f st key ns = Except.ok n → n = -1 ∨ n = -2 ∨ 0 ≤ n) := by
  have hval : ∀ k, storeTTL st k = -1 ∨ storeTTL st k = -2 ∨ 0 ≤ storeTTL st k := by
    intro k
    unfold storeTTL
    cases hf : st.entries.find? (fun e => e.key == k) with
    | none => exact Or.inr (Or.inl rfl)
    | some e =>
      obtain ⟨k0, w0, exp0⟩ := e
      cases exp0 with
      | none => exact Or.inl rfl
      | some n => exact Or.inr (Or.inr (Int.ofNat_nonneg n))
  have hok : ∀ g : Faults, g.conn = false → g.ttlCmd = false →
      svcGetTTL ctx g st key ns = Except.ok (storeTTL st (generateKey ctx key ns)) := by
    intro g hc ht
    unfold svcGetTTL
    simp [guardCmd, hc, ht]
  refine ⟨?_, ?_, ?_, ?_⟩
  · cases hc : f.conn <;> cases ht : f.ttlCmd
    · exact ⟨_, hok f hc ht⟩
    all_goals
      refine ⟨-1, ?_⟩
      unfold svcGetTTL
      simp [guardCmd, hc, ht]
  · intro hf
    subst hf
    exact hok Faults.healthy rfl rfl
  · intro hf
    unfold svcGetTTL
    rcases hf with hc | ht
    · simp [guardCmd, hc]
    · cases hc : f.conn
      · simp [guardCmd, hc, ht]
      · simp [guardCmd, hc]
  · intro n hn
    cases hc : f.conn <;> cases ht : f.ttlCmd
    · rw [hok f hc ht] at hn
      cases hn
      exact hval _
    all_goals
      unfold svcGetTTL at hn
      simp [guardCmd, hc, ht] at hn
      rcases hn with rfl
      exact Or.inl rfl

/-- C8 counterexample: on an empty healthy backend, getTTL of an absent
key resolves to -2 — neither a remaining-seconds value nor -1 — refuting
the claimed "seconds remaining or -1, and never any other value". -/
theorem c8_counterexample :
    svcGetTTL ⟨"http-server", "dev"⟩ Faults.healthy ⟨[], []⟩ "date:2024-01-15"
        (some "appointments") = Except.ok (-2) ∧
    (-2 : Int) ≠ -1 ∧ ¬(0 ≤ (-2 : Int)) := by
  refine ⟨rfl, by decide, by decide⟩

/-- Witness for C8 at concrete inputs: an existing entry reports its
remaining TTL, and a connection failure reports -1. -/
theorem c8_witness :
    svcGetTTL ⟨"http-server", "dev"⟩ Faults.healthy storeEx "/api/patients"
        (some "patients") = Except.ok 300 ∧
    svcGetTTL ⟨"http-server", "dev"⟩ connFault storeEx "/api/patients"
        (some "patients") = Except.ok (-1) := by
  constructor
  · exact (c8_getTTL_values ⟨"http-server", "dev"⟩ Faults.healthy storeEx
      "/api/patients" (some "patients")).2.1 rfl
  · exact (c8_getTTL_values ⟨"http-server", "dev"⟩ connFault storeEx
      "/api/patients" (some "patients")).2.2.1 (Or.inl rfl)

/-- Reduction of pure into the ok constructor for Except. -/
@[simp] theorem except_pure_eq_ok (a : α) : (pure a : Except ε α) = Except.ok a := rfl

/-- Key lookup in a keyspace filtered on non-matching keys: find?-by-key
commutes with dropping the glob matches. -/
theorem find_key_filter_glob (l : List RedisEntry) (pat k : String) :
    (l.filter (fun e => !(globMatch pat e.key))).find? (fun e => e.key == k) =
      if globMatch pat k then none else l.find? (fun e => e.key == k) := by
  induction l with
  | nil => simp
  | cons e rest ih =>
    by_cases hek : e.key = k
    · subst hek
      cases hp : globMatch pat e.key <;>
        simp [List.filter_cons, List.find?_cons, hp, ih]
    · have hbeq : (e.key == k) = false := by
        simp [hek]
      cases hp : globMatch pat e.key <;>
        simp [List.filter_cons, List.find?_cons, hp, hbeq, ih]

/-- For an entry of the store, membership of its key in the KEYS result is
exactly the glob match of the pattern against the key. -/
theorem contains_storeKeys (st : RedisStore) (pat : String) (e : RedisEntry)
    (he : e ∈ st.entries) :
    (storeKeys st pat).contains e.key = globMatch pat e.key := by
  cases hg : globMatch pat e.key
  · rw [Bool.eq_false_iff]
    intro hc
    have hmem : e.key ∈ storeKeys st pat := List.elem_iff.mp hc
    unfold storeKeys at hmem
    obtain ⟨e2, he2, hkey⟩ := List.mem_map.mp hmem
    have := (List.mem_filter.mp he2).2
    rw [hkey] at this
    rw [this] at hg
    cases hg
  · have hmem : e.key ∈ storeKeys st pat := by
      unfold storeKeys
      exact List.mem_map.mpr ⟨e, List.mem_filter.mpr ⟨he, hg⟩, rfl⟩
    exact List.elem_iff.mpr hmem

/-- DEL of the KEYS result removes exactly the entries whose key matches
the pattern. -/
theorem storeDel_keys_entries (st : RedisStore) (pat : String) :
    (storeDel st (storeKeys st pat)).entries =
      st.entries.filter (fun e => !(globMatch pat e.key)) := by
  unfold storeDel
  exact List.filter_congr (fun e he => by rw [contains_storeKeys st pat e he])

/-- After DEL of the KEYS result, lookup of a matching key misses and
lookup of a non-matching key is unchanged. -/
theorem storeGet_del_pattern (st : RedisStore) (pat k : String) :
    storeGet (storeDel st (storeKeys st pat)) k =
      if globMatch pat k then none else storeGet st k := by
  unfold storeGet
  rw [storeDel_keys_entries, find_key_filter_glob]
  cases hg : globMatch pat k <;> simp [hg]

/-- If no key matches the pattern, no stored entry's key matches, so a
lookup of any matching key already misses. -/
theorem storeKeys_nil_no_match (st : RedisStore) (pat k : String)
    (hnil : storeKeys st pat = []) (hg : globMatch pat k = true) :
    storeGet st k = none := by
  unfold storeGet
  cases hfind : st.entries.find? (fun e => e.key == k) with
  | none => rfl
  | some e =>
    exfalso
    have hek : e.key = k := by
      have := List.find?_some hfind
      simpa using this
    have hmem : e.key ∈ storeKeys st pat := by
      unfold storeKeys
      refine List.mem_map.mpr ⟨e, List.mem_filter.mpr
        ⟨List.mem_of_find?_eq_some hfind, ?_⟩, rfl⟩
      rw [hek]
      exact hg
    rw [hnil] at hmem
    cases hmem

/-- deleteByPattern under a healthy backend: every key matching the
namespaced pattern is gone, every other key is untouched, and the
published log is unchanged. -/
theorem svcDeleteByPattern_healthy (ctx : SvcCtx) (st : RedisStore)
    (pat : String) (ns : Option String) :
    (∀ k, storeGet (svcDeleteByPattern ctx Faults.healthy st pat ns) k =
      if globMatch (generateKey ctx pat ns) k then none else storeGet st k) ∧
    (svcDeleteByPattern ctx Faults.healthy st pat ns).published = st.published := by
  unfold svcDeleteByPattern svcDeleteByPatternBody
  simp only [guardCmd, Faults.healthy, if_neg Bool.false_ne_true, except_ok_bind,
    except_pure_eq_ok]
  by_cases hlen : (storeKeys st (generateKey ctx pat ns)).length > 0
  · simp only [if_pos hlen]
    constructor
    · intro k
      exact storeGet_del_pattern st (generateKey ctx pat ns) k
    · rfl
  · simp only [if_neg hlen]
    constructor
    · intro k
      cases hg : globMatch (generateKey ctx pat ns) k with
      | false => simp
      | true =>
        have hnil : storeKeys st (generateKey ctx pat ns) = [] :=
          List.eq_nil_of_length_eq_zero (Nat.eq_zero_of_not_pos hlen)
        simp [storeKeys_nil_no_match st _ k hnil hg]
    · trivial

/-- publish under a healthy backend appends exactly one envelope to the
channel log. -/
theorem svcPublish_healthy (ctx : SvcCtx) (st : RedisStore) (channel ts : String)
    (data : JsonVal) :
    svcPublish ctx Faults.healthy st channel ts data =
      storePublish st channel ⟨ts, ctx.serviceName, data⟩ := by
  unfold svcPublish
  simp [guardCmd, Faults.healthy]

/-- C6: invalidateCache under a healthy backend deletes every backend key
matching the namespaced pattern (the pattern defaulting to the whole
namespace when omitted — or passed as the falsy empty string), leaves all
other keys untouched, and then publishes on the cache:invalidate channel
an invalidation message naming the namespace, the pattern used and the
originating service. -/
theorem c6_invalidate_deletes_then_publishes (ctx : SvcCtx) (st : RedisStore)
    (ns : String) (patOpt : Option String) (ts : String) :
    (∀ k, storeGet (svcInvalidateCache ctx Faults.healthy st ns patOpt ts) k =
      if globMatch (generateKey ctx (orDefaultStr patOpt "*") (some ns)) k then none
      else storeGet st k) ∧
    (svcInvalidateCache ctx Faults.healthy st ns patOpt ts).published =
      st.published ++ [("cache:invalidate",
        ⟨ts, ctx.serviceName,
          invalidationMessage ns (orDefaultStr patOpt "*") ctx.serviceName⟩)] := by
  unfold svcInvalidateCache
  rw [svcPublish_healthy]
  have hpub : ∀ (st2 : RedisStore) ch m k2,
      storeGet (storePublish st2 ch m) k2 = storeGet st2 k2 := by
    intro st2 ch m k2
    rfl
  constructor
  · intro k
    rw [hpub]
    exact (svcDeleteByPattern_healthy ctx st _ (some ns)).1 k
  · unfold storePublish
    rw [(svcDeleteByPattern_healthy ctx st _ (some ns)).2]

/-- Reduction of Except.map on a success. -/
@[simp] theorem except_map_ok (f : α → β) (a : α) :
    Except.map f (Except.ok a : Except ε α) = Except.ok (f a) := rfl

/-- Reduction of Except.map on a failure. -/
@[simp] theorem except_map_error (f : α → β) (e : ε) :
    Except.map f (Except.error e : Except ε α) = Except.error e := rfl

/-- batchEntry keeps the original key as the first component of whatever
it produces. -/
theorem batchEntry_fst (kv : String × Option Wire) (r : String × JsonVal)
    (h : batchEntry kv = Except.ok r) : r.1 = kv.1 := by
  rcases kv with ⟨k, w⟩
  cases w with
  | none =>
    simp [batchEntry] at h
    rw [← h]
  | some w0 =>
    cases w0 with
    | json v =>
      simp [batchEntry, wireTruthy, parseWire] at h
      rw [← h]
    | corrupt s =>
      by_cases hs : s = "" <;>
        simp [batchEntry, wireTruthy, parseWire, hs] at h <;>
        rw [← h]

/-- A successful batchCollect keeps the key column intact. -/
theorem batchCollect_fst :
    ∀ (ps : List (String × Option Wire)) (m : List (String × JsonVal)),
      batchCollect ps = Except.ok m → m.map Prod.fst = ps.map Prod.fst := by
  intro ps
  induction ps with
  | nil =>
    intro m h
    cases h
    rfl
  | cons kv rest ih =>
    intro m h
    unfold batchCollect at h
    cases hv : batchEntry kv with
    | error e =>
      rw [hv] at h
      simp at h
    | ok r =>
      rw [hv] at h
      cases hrest : batchCollect rest with
      | error e =>
        rw [hrest] at h
        simp at h
      | ok rs =>
        rw [hrest] at h
        simp at h
        rw [← h]
        simp [batchEntry_fst kv r hv, ih rs hrest]

/-- The value getBatch's contract promises per requested key: the parsed
stored JSON on a hit, null otherwise. -/
def batchExpected (ctx : SvcCtx) (st : RedisStore) (ns : Option String)
    (k : String) : JsonVal :=
  match storeGet st (generateKey ctx k ns) with
  | some (Wire.json v) => v
  | some (Wire.corrupt _) => JsonVal.jnull
  | none => JsonVal.jnull

/-- Zipping the requested keys with their MGET column tabulates the
lookup per key. -/
theorem zip_column_eq_map (ctx : SvcCtx) (st : RedisStore) (ns : Option String)
    (keys : List String) :
    keys.zip ((keys.map (fun k => generateKey ctx k ns)).map (fun ck => storeGet st ck)) =
      keys.map (fun k => (k, storeGet st (generateKey ctx k ns))) := by
  induction keys with
  | nil => rfl
  | cons k rest ih => simp only [List.map_cons, List.zip_cons_cons, ih]

/-- batchCollect over a tabulated lookup column with no corrupt entry
succeeds with the promised per-key values. -/
theorem batchCollect_healthy (ctx : SvcCtx) (st : RedisStore) (ns : Option String) :
    ∀ keys : List String,
      (∀ k ∈ keys, ∀ s, storeGet st (generateKey ctx k ns) ≠ some (Wire.corrupt s)) →
      batchCollect (keys.map (fun k => (k, storeGet st (generateKey ctx k ns)))) =
        Except.ok (keys.map (fun k => (k, batchExpected ctx st ns k))) := by
  intro keys
  induction keys with
  | nil =>
    intro h
    rfl
  | cons k rest ih =>
    intro h
    have hk := h k (List.mem_cons_self k rest)
    have hrest := ih (fun k2 hk2 => h k2 (List.mem_cons_of_mem k hk2))
    rw [List.map_cons]
    unfold batchCollect
    rw [hrest]
    cases hw : storeGet st (generateKey ctx k ns) with
    | none => simp [batchEntry, hw, batchExpected]
    | some w =>
      cases w with
      | json v => simp [batchEntry, hw, batchExpected, wireTruthy, parseWire]
      | corrupt s => exact absurd hw (hk s)

/-- Projecting the key column back out of a tabulation. -/
theorem map_fst_pair {α : Type} (g : String → α) (keys : List String) :
    keys.map (Prod.fst ∘ fun k => (k, g k)) = keys := by
  induction keys with
  | nil => rfl
  | cons k rest ih => simp only [List.map_cons, Function.comp_apply, ih]

/-- C7: getBatch always resolves with a record whose key column is exactly
the requested key list (in order, even when the backend fails); and under
a healthy backend holding no corrupt entry at the requested keys, every
requested key is associated with its deserialized cached value, or null
when that key misses — correspondence is preserved even when only some
keys miss. -/
theorem c7_getBatch_correspondence (ctx : SvcCtx) (f : Faults) (st : RedisStore)
    (keys : List String) (ns : Option String) :
    (∃ m, svcGetBatch ctx f st keys ns = Except.ok m ∧ m.map Prod.fst = keys) ∧
    ((∀ k ∈ keys, ∀ s, storeGet st (generateKey ctx k ns) ≠ some (Wire.corrupt s)) →
      svcGetBatch ctx Faults.healthy st keys ns =
        Except.ok (keys.map (fun k => (k, batchExpected ctx st ns k)))) := by
  constructor
  · unfold svcGetBatch
    cases hb : svcGetBatchBody ctx f st keys ns with
    | error e =>
      refine ⟨keys.map (fun k => (k, JsonVal.jnull)), rfl, ?_⟩
      rw [List.map_map, map_fst_pair]
    | ok m =>
      refine ⟨m, rfl, ?_⟩
      unfold svcGetBatchBody at hb
      cases hc : f.conn <;> rw [hc] at hb
      · cases hm : f.mgetCmd <;> rw [hm] at hb
        · simp only [guardCmd, if_neg Bool.false_ne_true, except_ok_bind] at hb
          rw [zip_column_eq_map] at hb
          have h2 := batchCollect_fst _ m hb
          rw [List.map_map, map_fst_pair] at h2
          exact h2
        · simp [guardCmd] at hb
      · simp [guardCmd] at hb
  · intro hcor
    unfold svcGetBatch svcGetBatchBody
    simp only [guardCmd, Faults.healthy, if_neg Bool.false_ne_true, except_ok_bind]
    rw [zip_column_eq_map ctx st ns keys, batchCollect_healthy ctx st ns keys hcor]

/-- Witness for C7 at a concrete store: one hit and one miss, in order. -/
theorem c7_witness :
    svcGetBatch ⟨"http-server", "dev"⟩ Faults.healthy storeEx
        ["/api/patients", "/absent"] (some "patients") =
      Except.ok [("/api/patients", JsonVal.jstr "alice"), ("/absent", JsonVal.jnull)] := by
  have h := (c7_getBatch_correspondence ⟨"http-server", "dev"⟩ Faults.healthy storeEx
      ["/api/patients", "/absent"] (some "patients")).2 ?_
  · exact h
  · intro k hk s hcon
    fin_cases hk
    · exact Wire.noConfusion (Option.some.inj hcon)
    · exact Option.noConfusion hcon

/-- Characterization of CacheService.get when the connection and the GET
command both work, for an arbitrary fault pattern on the other commands. -/
theorem svcGet_no_fault (ctx : SvcCtx) (f : Faults) (st : RedisStore)
    (key : String) (ns : Option String) (hc : f.conn = false) (hg : f.getCmd = false) :
    svcGet ctx f st key ns =
      Except.ok (match storeGet st (generateKey ctx key ns) with
        | some (Wire.json v) => v
        | some (Wire.corrupt _) => JsonVal.jnull
        | none => JsonVal.jnull) := by
  unfold svcGet svcGetBody
  cases h : storeGet st (generateKey ctx key ns) with
  | none => simp [guardCmd, hc, hg, h]
  | some w =>
    cases w with
    | json v => simp [guardCmd, hc, hg, h, wireTruthy, parseWire]
    | corrupt s =>
      by_cases hs : s = "" <;>
        simp [guardCmd, hc, hg, h, wireTruthy, parseWire, hs]

/-- The resolved value of get when the connection and the GET command both
work. -/
theorem svcGetValue_eq (ctx : SvcCtx) (f : Faults) (st : RedisStore)
    (key : String) (ns : Option String) (hc : f.conn = false) (hg : f.getCmd = false) :
    svcGetValue ctx f st key ns =
      (match storeGet st (generateKey ctx key ns) with
        | some (Wire.json v) => v
        | some (Wire.corrupt _) => JsonVal.jnull
        | none => JsonVal.jnull) := by
  unfold svcGetValue
  rw [svcGet_no_fault ctx f st key ns hc hg]

/-- The resolved value of get under a connection or GET command failure is
null. -/
theorem svcGetValue_fault (ctx : SvcCtx) (f : Faults) (st : RedisStore)
    (key : String) (ns : Option String) (hf : f.conn = true ∨ f.getCmd = true) :
    svcGetValue ctx f st key ns = JsonVal.jnull := by
  unfold svcGetValue
  rw [svcGet_fault ctx f st key ns hf]

/-- A truthy resolved get value can only come from a stored JSON payload
equal to it: faults and misses resolve to null and a corrupt string
resolves to null, all falsy. -/
theorem svcGetValue_truthy_stored (ctx : SvcCtx) (f : Faults) (st : RedisStore)
    (key : String) (ns : Option String)
    (ht : jsTruthy (svcGetValue ctx f st key ns) = true) :
    storeGet st (generateKey ctx key ns) =
      some (Wire.json (svcGetValue ctx f st key ns)) := by
  cases hc : f.conn
  · cases hg : f.getCmd
    · rw [svcGetValue_eq ctx f st key ns hc hg] at ht ⊢
      cases hw : storeGet st (generateKey ctx key ns) with
      | none => rw [hw] at ht; cases ht
      | some w =>
        cases w with
        | json v => rfl
        | corrupt s => rw [hw] at ht; cases ht
    · rw [svcGetValue_fault ctx f st key ns (Or.inr hg)] at ht
      cases ht
  · rw [svcGetValue_fault ctx f st key ns (Or.inl hc)] at ht
    cases ht

/-- CacheService.set either leaves the store unchanged (a swallowed
failure) or performs exactly the SETEX of its stringified value. -/
theorem svcSet_cases (ctx : SvcCtx) (f : Faults) (st : RedisStore) (key : String)
    (value : JsonVal) (ttlOpt : Option Nat) (ns : Option String) :
    svcSet ctx f st key value ttlOpt ns = st ∨
    svcSet ctx f st key value ttlOpt ns =
      storeSetex st (generateKey ctx key ns) (resolveTTL ttlOpt) (Wire.json value) := by
  unfold svcSet svcSetBody
  cases hc : f.conn
  · cases hs : f.setCmd
    · right
      simp [guardCmd, hc, hs]
    · left
      simp [guardCmd, hc, hs]
  · left
    simp [guardCmd, hc]

/-- CacheService.set under a healthy backend is exactly the SETEX of its
stringified value with the resolved TTL. -/
theorem svcSet_healthy (ctx : SvcCtx) (st : RedisStore) (key : String)
    (value : JsonVal) (ttlOpt : Option Nat) (ns : Option String) :
    svcSet ctx Faults.healthy st key value ttlOpt ns =
      storeSetex st (generateKey ctx key ns) (resolveTTL ttlOpt) (Wire.json value) := by
  unfold svcSet svcSetBody
  simp [guardCmd, Faults.healthy]

/-- The read-through wrapper on the cacheable path (GET, not skipped,
service initialization succeeding): short-circuit with status 200 on a
truthy cached payload, otherwise run the handler and store its body
exactly when the response is 2xx with a truthy success flag. -/
theorem runCacheMiddleware_eq (ctx : SvcCtx) (opts : MwOptions) (f : Faults)
    (handler : Req → HandlerResult) (req : Req) (st : RedisStore)
    (hm : req.method = "GET") (hs : mwSkips opts req = false) (hc : f.conn = false) :
    runCacheMiddleware ctx opts f handler req st =
      if jsTruthy (svcGetValue ctx f st (mwKey opts req) (some opts.ns)) then
        (⟨200, svcGetValue ctx f st (mwKey opts req) (some opts.ns)⟩, st)
      else if 200 ≤ (handler req).status ∧ (handler req).status < 300 ∧
          successFlag (handler req).body then
        (handler req,
          svcSet ctx f st (mwKey opts req) (handler req).body
            (some (opts.ttl.getD 300)) (some opts.ns))
      else (handler req, st) := by
  unfold runCacheMiddleware
  rw [if_neg (not_not_intro hm), if_neg (by simp [hs])]
  obtain ⟨v, hv⟩ := svcGet_no_exception ctx f st (mwKey opts req) (some opts.ns)
  have hval : svcGetValue ctx f st (mwKey opts req) (some opts.ns) = v := by
    unfold svcGetValue
    rw [hv]
  rw [hval]
  simp only [guardCmd, hc, if_neg Bool.false_ne_true, except_ok_bind, hv]
  by_cases ht : jsTruthy v
  · simp [ht]
  · by_cases hsucc : 200 ≤ (handler req).status ∧ (handler req).status < 300 ∧
        successFlag (handler req).body
    · simp [ht, hsucc]
    · simp [ht, hsucc]

/-- The read-through wrapper passes non-GET requests, skipped requests and
requests with a failed service initialization straight to the handler with
the store untouched. -/
theorem runCacheMiddleware_passthrough (ctx : SvcCtx) (opts : MwOptions)
    (f : Faults) (handler : Req → HandlerResult) (req : Req) (st : RedisStore)
    (h : req.method ≠ "GET" ∨ mwSkips opts req = true ∨ f.conn = true) :
    runCacheMiddleware ctx opts f handler req st = (handler req, st) := by
  unfold runCacheMiddleware
  rcases h with hm | hs | hc
  · rw [if_pos hm]
  · by_cases hm : req.method ≠ "GET"
    · rw [if_pos hm]
    · rw [if_neg hm, if_pos hs]
  · by_cases hm : req.method ≠ "GET"
    · rw [if_pos hm]
    · rw [if_neg hm]
      by_cases hs : mwSkips opts req
      · rw [if_pos hs]
      · rw [if_neg hs]
        simp [guardCmd, hc]

/-- C5: the read-through wrapper bypasses the cache entirely for non-GET
requests (handler response unchanged, store untouched); and on the miss
path — where the wrapper observes the outgoing response — under a healthy
backend it stores the response body under the computed key exactly when
the status code is 2xx and the body carries a truthy success flag, and
stores nothing (leaving the store unchanged) otherwise, so error responses
are never cached. -/
theorem c5_success_gated_caching (ctx : SvcCtx) (opts : MwOptions)
    (handler : Req → HandlerResult) (req : Req) (st : RedisStore) :
    (∀ f : Faults, req.method ≠ "GET" →
      runCacheMiddleware ctx opts f handler req st = (handler req, st)) ∧
    (req.method = "GET" → mwSkips opts req = false →
      jsTruthy (svcGetValue ctx Faults.healthy st (mwKey opts req) (some opts.ns)) = false →
      (runCacheMiddleware ctx opts Faults.healthy handler req st).1 = handler req ∧
      ((200 ≤ (handler req).status ∧ (handler req).status < 300 ∧
          successFlag (handler req).body) →
        (runCacheMiddleware ctx opts Faults.healthy handler req st).2 =
          storeSetex st (generateKey ctx (mwKey opts req) (some opts.ns))
            (resolveTTL (some (opts.ttl.getD 300))) (Wire.json (handler req).body)) ∧
      (¬(200 ≤ (handler req).status ∧ (handler req).status < 300 ∧
          successFlag (handler req).body) →
        (runCacheMiddleware ctx opts Faults.healthy handler req st).2 = st)) := by
  constructor
  · intro f hm
    exact runCacheMiddleware_passthrough ctx opts f handler req st (Or.inl hm)
  · intro hm hs ht
    rw [runCacheMiddleware_eq ctx opts Faults.healthy handler req st hm hs rfl]
    rw [if_neg (by rw [ht]; exact Bool.false_ne_true)]
    by_cases hsucc : 200 ≤ (handler req).status ∧ (handler req).status < 300 ∧
        successFlag (handler req).body
    · rw [if_pos hsucc]
      refine ⟨rfl, fun _ => ?_, fun hn => absurd hsucc hn⟩
      exact svcSet_healthy ctx st (mwKey opts req) (handler req).body
        (some (opts.ttl.getD 300)) (some opts.ns)
    · rw [if_neg hsucc]
      exact ⟨rfl, fun hp => absurd hp hsucc, fun _ => rfl⟩

/-- A successful route handler over the bills namespace, used by several
witnesses. -/
def okHandler : Req → HandlerResult :=
  fun r => ⟨200, JsonVal.jobj [("success", JsonVal.jbool true),
    ("path", JsonVal.jstr r.path)]⟩

/-- A failing route handler whose body carries success false. -/
def errHandler : Req → HandlerResult :=
  fun r => ⟨500, JsonVal.jobj [("success", JsonVal.jbool false),
    ("path", JsonVal.jstr r.path)]⟩

/-- Middleware options of the bills read-through wrapper: namespace bills,
TTL 300, default key generator, no skip predicate. -/
def billsOpts : MwOptions := ⟨"bills", some 300, none, none⟩

/-- The empty backend. -/
def emptyStore : RedisStore := ⟨[], []⟩

/-- Witness for C5 at concrete inputs: a POST bypasses the wrapper; a GET
miss with a 2xx success body stores that body; a GET miss with a 500
response stores nothing. -/
theorem c5_witness :
    runCacheMiddleware ⟨"http-server", "dev"⟩ billsOpts Faults.healthy okHandler
        ⟨"POST", "/api/bills", []⟩ emptyStore =
      (okHandler ⟨"POST", "/api/bills", []⟩, emptyStore) ∧
    (runCacheMiddleware ⟨"http-server", "dev"⟩ billsOpts Faults.healthy okHandler
        ⟨"GET", "/api/bills", []⟩ emptyStore).2 =
      storeSetex emptyStore "dev:bills:/api/bills" 300
        (Wire.json (okHandler ⟨"GET", "/api/bills", []⟩).body) ∧
    (runCacheMiddleware ⟨"http-server", "dev"⟩ billsOpts Faults.healthy errHandler
        ⟨"GET", "/api/bills", []⟩ emptyStore).2 = emptyStore := by
  refine ⟨?_, ?_, ?_⟩
  · exact (c5_success_gated_caching ⟨"http-server", "dev"⟩ billsOpts okHandler
      ⟨"POST", "/api/bills", []⟩ emptyStore).1 Faults.healthy (by decide)
  · exact ((c5_success_gated_caching ⟨"http-server", "dev"⟩ billsOpts okHandler
      ⟨"GET", "/api/bills", []⟩ emptyStore).2 rfl rfl rfl).2.1 (by refine ⟨by decide, by decide, rfl⟩)
  · exact ((c5_success_gated_caching ⟨"http-server", "dev"⟩ billsOpts errHandler
      ⟨"GET", "/api/bills", []⟩ emptyStore).2 rfl rfl rfl).2.2 (by
        intro hp
        exact absurd hp.2.1 (by decide))

/-- C9: a falsy cached payload (null, false, 0 or the empty string stored
as JSON) never short-circuits the read-through wrapper — the real handler
produces the response; and at the get interface a value stored as JSON
null is indistinguishable from an absent key: get resolves to null for
both, under every fault pattern. -/
theorem c9_falsy_cached_is_miss (ctx : SvcCtx) (opts : MwOptions)
    (handler : Req → HandlerResult) (req : Req) (st : RedisStore) :
    (∀ (f : Faults) (v : JsonVal), req.method = "GET" → mwSkips opts req = false →
      f.conn = false → f.getCmd = false →
      storeGet st (generateKey ctx (mwKey opts req) (some opts.ns)) =
        some (Wire.json v) →
      jsTruthy v = false →
      (runCacheMiddleware ctx opts f handler req st).1 = handler req) ∧
    (∀ (f : Faults) (st2 : RedisStore) (key : String) (ns : Option String),
      storeGet st (generateKey ctx key ns) = some (Wire.json JsonVal.jnull) →
      storeGet st2 (generateKey ctx key ns) = none →
      svcGet ctx f st key ns = svcGet ctx f st2 key ns) := by
  constructor
  · intro f v hm hs hc hg hw ht
    rw [runCacheMiddleware_eq ctx opts f handler req st hm hs hc]
    have hv : svcGetValue ctx f st (mwKey opts req) (some opts.ns) = v := by
      rw [svcGetValue_eq ctx f st (mwKey opts req) (some opts.ns) hc hg, hw]
    rw [hv, if_neg (by rw [ht]; exact Bool.false_ne_true)]
    by_cases hsucc : 200 ≤ (handler req).status ∧ (handler req).status < 300 ∧
        successFlag (handler req).body
    · rw [if_pos hsucc]
    · rw [if_neg hsucc]
  · intro f st2 key ns h1 h2
    cases hc : f.conn
    · cases hg : f.getCmd
      · rw [svcGet_no_fault ctx f st key ns hc hg,
          svcGet_no_fault ctx f st2 key ns hc hg, h1, h2]
      · rw [svcGet_fault ctx f st key ns (Or.inr hg),
          svcGet_fault ctx f st2 key ns (Or.inr hg)]
    · rw [svcGet_fault ctx f st key ns (Or.inl hc),
        svcGet_fault ctx f st2 key ns (Or.inl hc)]

/-- A backend whose only bills entry is the JSON value false — a falsy
cached payload. -/
def falsyStore : RedisStore :=
  ⟨[⟨"dev:bills:/api/bills", Wire.json (JsonVal.jbool false), some 300⟩], []⟩

/-- A backend whose only bills entry is the JSON value null. -/
def nullStore : RedisStore :=
  ⟨[⟨"dev:bills:/api/bills", Wire.json JsonVal.jnull, some 300⟩], []⟩

/-- Witness for C9 at concrete inputs: a cached false delegates to the
handler, and get cannot tell a stored JSON null from the empty backend. -/
theorem c9_witness :
    (runCacheMiddleware ⟨"http-server", "dev"⟩ billsOpts Faults.healthy okHandler
        ⟨"GET", "/api/bills", []⟩ falsyStore).1 =
      okHandler ⟨"GET", "/api/bills", []⟩ ∧
    svcGet ⟨"http-server", "dev"⟩ Faults.healthy nullStore "/api/bills"
        (some "bills") =
      svcGet ⟨"http-server", "dev"⟩ Faults.healthy emptyStore "/api/bills"
        (some "bills") := by
  constructor
  · exact (c9_falsy_cached_is_miss ⟨"http-server", "dev"⟩ billsOpts okHandler
      ⟨"GET", "/api/bills", []⟩ falsyStore).1 Faults.healthy (JsonVal.jbool false)
      rfl rfl rfl rfl rfl rfl
  · exact (c9_falsy_cached_is_miss ⟨"http-server", "dev"⟩ billsOpts okHandler
      ⟨"GET", "/api/bills", []⟩ nullStore).2 Faults.healthy emptyStore
      "/api/bills" (some "bills") rfl rfl

/-- find?-by-key ignores the removal of entries with a different key. -/
theorem find_key_filter_ne (l : List RedisEntry) (k k2 : String) (hne : k2 ≠ k) :
    (l.filter (fun e => e.key != k)).find? (fun e => e.key == k2) =
      l.find? (fun e => e.key == k2) := by
  induction l with
  | nil => rfl
  | cons e rest ih =>
    by_cases he : e.key = k
    · have h1 : (e.key != k) = false := by simp [he]
      have h2 : (e.key == k2) = false := by simp [he]; exact fun hk => hne hk.symm
      simp [List.filter_cons, List.find?_cons, h1, h2, ih]
    · have h1 : (e.key != k) = true := by simp [he]
      cases h2 : e.key == k2 <;>
        simp [List.filter_cons, List.find?_cons, h1, h2, ih]

/-- Lookup after SETEX: the written key now holds the new value, every
other key is untouched. -/
theorem storeGet_setex (st : RedisStore) (k : String) (ttl : Nat) (v : Wire)
    (k2 : String) :
    storeGet (storeSetex st k ttl v) k2 =
      if k2 = k then some v else storeGet st k2 := by
  unfold storeGet storeSetex
  by_cases he : k2 = k
  · subst he
    simp [List.find?_cons]
  · have h2 : (k == k2) = false := by
      simp
      exact fun hk => he hk.symm
    simp only [List.find?_cons, h2]
    rw [find_key_filter_ne st.entries k k2 he, if_neg he]

/-- The namespaced key map is injective in the raw key for a fixed context
and namespace. -/
theorem generateKey_inj (ctx : SvcCtx) (ns : String) {k1 k2 : String}
    (h : generateKey ctx k1 (some ns) = generateKey ctx k2 (some ns)) : k1 = k2 := by
  unfold generateKey at h
  exact string_append_left_cancel h

/-- One middleware step is transparent and preserves cache consistency:
with a handler that factors through the middleware cache key, a consistent
store yields the handler's own response body (from the cache on a truthy
hit, from the handler otherwise) under every fault pattern, and the store
stays consistent. -/
theorem mw_step (ctx : SvcCtx) (opts : MwOptions) (hkey : String → HandlerResult)
    (handler : Req → HandlerResult) (f : Faults) (req : Req) (st : RedisStore)
    (hfac : ∀ r, handler r = hkey (mwKey opts r))
    (hcons : MwConsistent ctx opts hkey st) :
    (runCacheMiddleware ctx opts f handler req st).1.body = (handler req).body ∧
    MwConsistent ctx opts hkey (runCacheMiddleware ctx opts f handler req st).2 := by
  by_cases hm : req.method = "GET"
  · by_cases hsk : mwSkips opts req
    · rw [runCacheMiddleware_passthrough ctx opts f handler req st (Or.inr (Or.inl hsk))]
      exact ⟨rfl, hcons⟩
    · cases hc : f.conn with
      | true =>
        rw [runCacheMiddleware_passthrough ctx opts f handler req st
          (Or.inr (Or.inr hc))]
        exact ⟨rfl, hcons⟩
      | false =>
        rw [runCacheMiddleware_eq ctx opts f handler req st hm
          (Bool.eq_false_iff.mpr hsk) hc]
        by_cases ht : jsTruthy (svcGetValue ctx f st (mwKey opts req) (some opts.ns))
        · rw [if_pos ht]
          have hstored := svcGetValue_truthy_stored ctx f st (mwKey opts req)
            (some opts.ns) ht
          have hbody := hcons (mwKey opts req) _ hstored ht
          refine ⟨?_, hcons⟩
          rw [hfac req]
          exact hbody
        · rw [if_neg ht]
          by_cases hsucc : 200 ≤ (handler req).status ∧ (handler req).status < 300 ∧
              successFlag (handler req).body
          · rw [if_pos hsucc]
            refine ⟨rfl, ?_⟩
            rcases svcSet_cases ctx f st (mwKey opts req) (handler req).body
              (some (opts.ttl.getD 300)) (some opts.ns) with hset | hset
            · rw [hset]
              exact hcons
            · rw [hset]
              intro k v hget htv
              rw [storeGet_setex] at hget
              by_cases hk : generateKey ctx k (some opts.ns) =
                  generateKey ctx (mwKey opts req) (some opts.ns)
              · rw [if_pos hk] at hget
                have hkk : k = mwKey opts req := generateKey_inj ctx opts.ns hk
                have hv : v = (handler req).body := by
                  injection hget with hg2
                  injection hg2 with hg3
                  exact hg3.symm
                rw [hv, hkk, hfac req]
              · rw [if_neg hk] at hget
                exact hcons k v hget htv
          · rw [if_neg hsucc]
            exact ⟨rfl, hcons⟩
  · rw [runCacheMiddleware_passthrough ctx opts f handler req st (Or.inl hm)]
    exact ⟨rfl, hcons⟩

/-- C1 (cache transparency): for a deterministic handler that factors
through the middleware cache key, processing any request sequence through
the read-through wrapper from a consistent store (the empty store in
particular) yields exactly the response bodies the bare handler would have
produced — under every per-request fault pattern, so removing the wrapper
changes only latency and backend calls, never response content. -/
theorem c1_cache_transparency (ctx : SvcCtx) (opts : MwOptions)
    (hkey : String → HandlerResult) (handler : Req → HandlerResult)
    (reqs : List (Req × Faults)) (st : RedisStore)
    (hfac : ∀ r, handler r = hkey (mwKey opts r))
    (hcons : MwConsistent ctx opts hkey st) :
    (mwTrace ctx opts handler reqs st).1.map HandlerResult.body =
      reqs.map (fun rf => (handler rf.1).body) := by
  induction reqs generalizing st with
  | nil => rfl
  | cons rf rest ih =>
    obtain ⟨req, f⟩ := rf
    obtain ⟨hbody, hcons2⟩ := mw_step ctx opts hkey handler f req st hfac hcons
    unfold mwTrace
    simp only [List.map_cons, hbody, ih _ hcons2]

/-- A per-cache-key response table for the C1 witness: a successful body
that records the key it answers for. -/
def hkeyEx : String → HandlerResult :=
  fun k => ⟨200, JsonVal.jobj [("success", JsonVal.jbool true),
    ("key", JsonVal.jstr k)]⟩

/-- A handler that factors through the middleware cache key. -/
def keyHandler : Req → HandlerResult :=
  fun r => hkeyEx (mwKey billsOpts r)

/-- Witness for C1 at concrete inputs: two identical GET requests from the
empty store (the second served from the populated cache) both produce the
bare handler's response body. -/
theorem c1_witness :
    (mwTrace ⟨"http-server", "dev"⟩ billsOpts keyHandler
        [(⟨"GET", "/api/bills", []⟩, Faults.healthy),
          (⟨"GET", "/api/bills", []⟩, Faults.healthy)] emptyStore).1.map
        HandlerResult.body =
      [JsonVal.jobj [("success", JsonVal.jbool true), ("key", JsonVal.jstr "/api/bills")],
        JsonVal.jobj [("success", JsonVal.jbool true), ("key", JsonVal.jstr "/api/bills")]] := by
  have h := c1_cache_transparency ⟨"http-server", "dev"⟩ billsOpts hkeyEx keyHandler
    [(⟨"GET", "/api/bills", []⟩, Faults.healthy),
      (⟨"GET", "/api/bills", []⟩, Faults.healthy)] emptyStore
    (fun r => rfl) ?_
  · exact h.trans rfl
  · intro k v hget htv
    exact Option.noConfusion hget

/-- Erasing a service name keeps the key column duplicate-free. -/
theorem poolErase_nodup (st : PoolState) (name : String)
    (h : (st.map Prod.fst).Nodup) : ((poolErase st name).map Prod.fst).Nodup :=
  h.sublist (List.Sublist.map Prod.fst (List.filter_sublist st))

/-- Map.set keeps the key column duplicate-free: the erased tail cannot
contain the freshly bound name. -/
theorem poolSet_nodup (st : PoolState) (name : String) (c : Conn)
    (h : (st.map Prod.fst).Nodup) : ((poolSet st name c).map Prod.fst).Nodup := by
  unfold poolSet
  rw [List.map_cons]
  refine List.nodup_cons.mpr ⟨?_, poolErase_nodup st name h⟩
  intro hmem
  obtain ⟨e, he, hfst⟩ := List.mem_map.mp hmem
  have hne := (List.mem_filter.mp he).2
  rw [hfst] at hne
  simp at hne

/-- C4 (amended): the pool map holds at most one connection per service
name — getConnection preserves a duplicate-free key column — and it
returns the existing connection without touching the pool exactly when
that connection's status is ready or connecting; a connection in any other
status (reconnecting included) is treated as unusable and replaced by a
fresh one. -/
theorem c4_pool_single_connection (st : PoolState) (name : String) (fresh : Conn)
    (connectOk : Bool) :
    ((st.map Prod.fst).Nodup →
      (((getConnection st name fresh connectOk).2).map Prod.fst).Nodup) ∧
    (∀ c, lookupConn st name = some c → usable c = true →
      getConnection st name fresh connectOk = (Except.ok c, st)) := by
  constructor
  · intro h
    unfold getConnection createConnection
    cases hlook : lookupConn st name with
    | some c =>
      by_cases hu : usable c
      · simp only [hu, if_pos rfl]
        exact h
      · have hu2 : usable c = false := Bool.eq_false_iff.mpr hu
        simp only [hu2, Bool.false_ne_true, if_neg]
        unfold closeConnection
        rw [hlook]
        cases connectOk with
        | true =>
          simp only [if_pos rfl]
          exact poolSet_nodup (poolErase st name) name fresh
            (poolErase_nodup st name h)
        | false =>
          simp only [Bool.false_ne_true, if_neg]
          exact poolErase_nodup st name h
    | none =>
      cases connectOk with
      | true =>
        simp only [if_pos rfl]
        exact poolSet_nodup st name fresh h
      | false =>
        simp only [Bool.false_ne_true, if_neg]
        exact h
  · intro c hlook hu
    unfold getConnection
    rw [hlook]
    simp [hu]

/-- A pool whose only connection is mid-reconnect. -/
def reconnPool : PoolState := [("http-server", ⟨0, ConnStatus.reconnecting⟩)]

/-- C4 counterexample: asked for a connection while the existing one is
mid-reconnect (status reconnecting), getConnection does not return that
existing connection — it closes it and hands back a newly created one. -/
theorem c4_counterexample :
    lookupConn reconnPool "http-server" = some ⟨0, ConnStatus.reconnecting⟩ ∧
    (getConnection reconnPool "http-server" ⟨1, ConnStatus.ready⟩ true).1 =
      Except.ok ⟨1, ConnStatus.ready⟩ ∧
    (⟨1, ConnStatus.ready⟩ : Conn) ≠ ⟨0, ConnStatus.reconnecting⟩ := by
  refine ⟨rfl, rfl, by decide⟩

/-- Witness for C4 at a concrete pool: a ready connection is returned
as-is with the pool untouched, and the key column stays duplicate-free. -/
theorem c4_witness :
    (((getConnection [("http-server", ⟨0, ConnStatus.ready⟩)] "http-server"
        ⟨1, ConnStatus.ready⟩ true).2).map Prod.fst).Nodup ∧
    getConnection [("http-server", ⟨0, ConnStatus.ready⟩)] "http-server"
        ⟨1, ConnStatus.ready⟩ true =
      (Except.ok ⟨0, ConnStatus.ready⟩, [("http-server", ⟨0, ConnStatus.ready⟩)]) := by
  constructor
  · exact (c4_pool_single_connection [("http-server", ⟨0, ConnStatus.ready⟩)]
      "http-server" ⟨1, ConnStatus.ready⟩ true).1 (by simp)
  · exact (c4_pool_single_connection [("http-server", ⟨0, ConnStatus.ready⟩)]
      "http-server" ⟨1, ConnStatus.ready⟩ true).2 ⟨0, ConnStatus.ready⟩ rfl rfl

/-- healthCheck never changes the pool map. -/
theorem poolHealthCheck_state (st : PoolState) (name : String)
    (ping : Except String String) : (poolHealthCheck st name ping).2 = st := by
  unfold poolHealthCheck
  cases lookupConn st name with
  | none => rfl
  | some c =>
    show (if c.status ≠ ConnStatus.ready then (false, st)
      else match ping with
        | Except.ok r => ((r == "PONG"), st)
        | Except.error _ => (false, st)).2 = st
    by_cases hst : c.status ≠ ConnStatus.ready
    · rw [if_pos hst]
    · rw [if_neg hst]
      cases ping <;> rfl

/-- The healthCheckAll loop never changes the pool map. -/
theorem healthCheckAllAux_state (pings : String → Except String String) :
    ∀ (names : List String) (st : PoolState),
      (healthCheckAllAux pings names st).2 = st := by
  intro names
  induction names with
  | nil => intro st; rfl
  | cons n rest ih =>
    intro st
    unfold healthCheckAllAux
    rw [ih, poolHealthCheck_state]

/-- C10: the pool's introspection operations are side-effect free on the
pool state — healthCheck, healthCheckAll, getConnectionInfo and
getActiveConnections all return the connection map exactly as it was, and
healthCheck of an absent service answers false without creating a
connection. -/
theorem c10_introspection_frame (st : PoolState) (name : String)
    (ping : Except String String) (pings : String → Except String String)
    (arg : Option String) :
    (poolHealthCheck st name ping).2 = st ∧
    (poolHealthCheckAll st pings).2 = st ∧
    (getConnectionInfo st arg).2 = st ∧
    (getActiveConnections st).2 = st ∧
    (lookupConn st name = none → (poolHealthCheck st name ping).1 = false) := by
  refine ⟨poolHealthCheck_state st name ping,
    healthCheckAllAux_state pings (st.map Prod.fst) st, ?_, rfl, ?_⟩
  · unfold getConnectionInfo
    cases arg with
    | none => rfl
    | some n =>
      show (match lookupConn st n with
        | some c => (ConnInfoOut.one (ConnInfo.found n c.status), st)
        | none => (ConnInfoOut.one (ConnInfo.notFound n), st)).2 = st
      cases lookupConn st n <;> rfl
  · intro hnone
    unfold poolHealthCheck
    rw [hnone]

/-- Witness for C10: on the empty pool, healthCheck of an unknown service
returns false. -/
theorem c10_witness :
    (poolHealthCheck [] "http-server" (Except.ok "PONG")).1 = false := by
  exact (c10_introspection_frame [] "http-server" (Except.ok "PONG")
    (fun _ => Except.ok "PONG") none).2.2.2.2 rfl
